import Mathlib

set_option maxRecDepth 20000

/-!
Verification development for the CloudDrop content-addressable file store
(`internetFileService.js`, `redisClient.js`, `s3Service.js`).

The service code is embedded shallowly: byte payloads are `List Nat`
(each entry a byte value), the Redis keyspace is an association list of
string keys to string values, the uploads directory is a list of named
blobs, and every operation is a pure state-passing function that also
emits a trace of its durable side effects so ordering properties can be
stated.  JavaScript exceptions become `Except String`.
-/

namespace CloudDrop

/-- Byte payloads (`req.file.buffer`) are lists of byte values. -/
abbrev Content := List Nat

/-! ## ContentHasher: SHA-256 (`crypto.createHash('sha256')`)

`_calculateFileHash` feeds the file buffer to Node's SHA-256 and takes the
hex digest.  The hash itself is library code, reproduced here from
FIPS 180-4 so digests are concretely computable. -/

/-- Arithmetic in SHA-256 is on 32-bit words. -/
def w32 : Nat := 4294967296

/-- Rotate a 32-bit word right by `n`. -/
def rotr (n x : Nat) : Nat := ((x >>> n) ||| (x <<< (32 - n))) % w32

/-- Bitwise complement within 32 bits. -/
def notw (x : Nat) : Nat := x ^^^ 4294967295

def ch (x y z : Nat) : Nat := (x &&& y) ^^^ (notw x &&& z)

def maj (x y z : Nat) : Nat := (x &&& y) ^^^ (x &&& z) ^^^ (y &&& z)

def bigSigma0 (x : Nat) : Nat := rotr 2 x ^^^ rotr 13 x ^^^ rotr 22 x

def bigSigma1 (x : Nat) : Nat := rotr 6 x ^^^ rotr 11 x ^^^ rotr 25 x

def smallSigma0 (x : Nat) : Nat := rotr 7 x ^^^ rotr 18 x ^^^ (x >>> 3)

def smallSigma1 (x : Nat) : Nat := rotr 17 x ^^^ rotr 19 x ^^^ (x >>> 10)

/-- SHA-256 round constants: fractional parts of the cube roots of the
first 64 primes. -/
def sha256K : List Nat :=
  [1116352408, 1899447441, 3049323471, 3921009573, 961987163, 1508970993,
   2453635748, 2870763221, 3624381080, 310598401, 607225278, 1426881987,
   1925078388, 2162078206, 2614888103, 3248222580, 3835390401, 4022224774,
   264347078, 604807628, 770255983, 1249150122, 1555081692, 1996064986,
   2554220882, 2821834349, 2952996808, 3210313671, 3336571891, 3584528711,
   113926993, 338241895, 666307205, 773529912, 1294757372, 1396182291,
   1695183700, 1986661051, 2177026350, 2456956037, 2730485921, 2820302411,
   3259730800, 3345764771, 3516065817, 3600352804, 4094571909, 275423344,
   430227734, 506948616, 659060556, 883997877, 958139571, 1322822218,
   1537002063, 1747873779, 1955562222, 2024104815, 2227730452, 2361852424,
   2428436474, 2756734187, 3204031479, 3329325298]

/-- SHA-256 initial hash value: fractional parts of the square roots of
the first 8 primes. -/
def sha256H0 : List Nat :=
  [1779033703, 3144134277, 1013904242, 2773480762, 1359893119, 2600822924,
   528734635, 1541459225]

/-- Merkle-Damgard padding: append 0x80, zero bytes to 56 mod 64, then the
bit length as 8 big-endian bytes. -/
def sha256Pad (msg : Content) : Content :=
  let bitLen := msg.length * 8
  let zeros := (119 - msg.length % 64) % 64
  msg ++ [128] ++ List.replicate zeros 0 ++
    (List.range 8).map (fun i => (bitLen >>> (56 - 8 * i)) % 256)

/-- Big-endian bytes to a word. -/
def bytesToWord (bs : List Nat) : Nat := bs.foldl (fun a b => a * 256 + b) 0

/-- A 64-byte block as 16 big-endian 32-bit words. -/
def blockWords (block : Content) : List Nat :=
  (List.range 16).map (fun i => bytesToWord ((block.drop (4 * i)).take 4))

/-- Extend 16 words to the 64-word message schedule. -/
def schedule (ws : List Nat) : List Nat :=
  (List.range 48).foldl
    (fun acc _ =>
      let n := acc.length
      acc ++ [(smallSigma1 (acc.getD (n - 2) 0) + acc.getD (n - 7) 0 +
               smallSigma0 (acc.getD (n - 15) 0) + acc.getD (n - 16) 0) % w32])
    ws

/-- One round of the SHA-256 compression function on state
`[a,b,c,d,e,f,g,h]`. -/
def sha256Round (ws : List Nat) (st : List Nat) (i : Nat) : List Nat :=
  match st with
  | [a, b, c, d, e, f, g, h] =>
      let t1 := (h + bigSigma1 e + ch e f g + sha256K.getD i 0 + ws.getD i 0) % w32
      let t2 := (bigSigma0 a + maj a b c) % w32
      [(t1 + t2) % w32, a, b, c, (d + t1) % w32, e, f, g]
  | other => other

/-- Compress one 64-byte block into the running hash state. -/
def compressBlock (h : List Nat) (block : Content) : List Nat :=
  let ws := schedule (blockWords block)
  let st := (List.range 64).foldl (sha256Round ws) h
  List.zipWith (fun x y => (x + y) % w32) h st

/-- Fuelled worker for `chunks64`; each step consumes at least one byte, so
fuel equal to the list length suffices.  Structural recursion on the fuel
keeps the definition kernel-reducible. -/
def chunks64Go : Nat → Content → List Content
  | 0, _ => []
  | _, [] => []
  | fuel + 1, x :: xs => ((x :: xs).take 64) :: chunks64Go fuel (xs.drop 63)

/-- Split a byte list into 64-byte chunks. -/
def chunks64 (l : Content) : List Content := chunks64Go l.length l

/-- Lowercase hex digit. -/
def hexDigit (n : Nat) : Char :=
  if n < 10 then Char.ofNat (48 + n) else Char.ofNat (87 + n)

/-- A 32-bit word as 8 lowercase hex characters. -/
def wordHex (w : Nat) : String :=
  String.mk ((List.range 8).map (fun i => hexDigit ((w >>> (28 - 4 * i)) % 16)))

/-- Hex SHA-256 digest of a byte payload: the embedding of
`_calculateFileHash`. -/
def sha256Hex (msg : Content) : String :=
  let hs := (chunks64 (sha256Pad msg)).foldl compressBlock sha256H0
  String.join (hs.map wordHex)

/-! ## String utilities

`decodeURIComponent` / `encodeURIComponent` are the JavaScript built-ins
used on the original filename; they are modelled here on the ASCII
fragment (multi-byte UTF-8 sequences and malformed-escape exceptions do
not arise in the properties below).  `path.extname` is Node's extension
extraction.  `containsSub` is JavaScript `String.prototype.includes`,
list-level prefix matching is `String.prototype.startsWith`. -/

/-- Value of a hex digit character, if it is one. -/
def hexVal (c : Char) : Option Nat :=
  if 48 ≤ c.toNat ∧ c.toNat ≤ 57 then some (c.toNat - 48)
  else if 97 ≤ c.toNat ∧ c.toNat ≤ 102 then some (c.toNat - 87)
  else if 65 ≤ c.toNat ∧ c.toNat ≤ 70 then some (c.toNat - 55)
  else none

/-- Percent-decoding on character lists: a well-formed escape decodes to
its byte; other characters pass through. -/
def percentDecodeList : List Char → List Char
  | [] => []
  | '%' :: a :: b :: rest =>
      match hexVal a, hexVal b with
      | some x, some y => Char.ofNat (16 * x + y) :: percentDecodeList rest
      | _, _ => '%' :: percentDecodeList (a :: b :: rest)
  | c :: rest => c :: percentDecodeList rest

/-- The embedding of JavaScript `decodeURIComponent` (ASCII fragment). -/
def decodeURIComponent (s : String) : String :=
  String.mk (percentDecodeList s.data)

/-- Characters `encodeURIComponent` leaves unescaped (39 is the
apostrophe). -/
def uriUnreserved (c : Char) : Bool :=
  c.isAlphanum || c ∈ ['-', '_', '.', '!', '~', '*', '(', ')'] || c.toNat == 39

/-- Uppercase hex digit. -/
def hexDigitUpper (n : Nat) : Char :=
  if n < 10 then Char.ofNat (48 + n) else Char.ofNat (55 + n)

/-- Escape one character as a percent sequence. -/
def percentEncodeChar (c : Char) : List Char :=
  ['%', hexDigitUpper (c.toNat / 16 % 16), hexDigitUpper (c.toNat % 16)]

/-- The embedding of JavaScript `encodeURIComponent` (ASCII fragment). -/
def encodeURIComponent (s : String) : String :=
  String.mk (s.data.foldr
    (fun c acc => (if uriUnreserved c then [c] else percentEncodeChar c) ++ acc) [])

/-- Extension of a path, on character lists: everything from the last dot
of the basename, unless that dot is the basename's first character. -/
def extnameChars (l : List Char) : List Char :=
  let base := (l.reverse.takeWhile (fun c => c ≠ '/')).reverse
  match base with
  | [] => []
  | _ :: rest =>
      if rest.contains '.' then
        '.' :: (rest.reverse.takeWhile (fun c => c ≠ '.')).reverse
      else []

/-- The embedding of Node `path.extname`. -/
def extname (s : String) : String := String.mk (extnameChars s.data)

/-- Contiguous-substring test: the embedding of JavaScript
`String.prototype.includes` at the character-list level. -/
def containsSub (needle : List Char) : List Char → Bool
  | [] => needle.isEmpty
  | c :: t => needle.isPrefixOf (c :: t) || containsSub needle t

/-! ## DeduplicationIndex

Modelled from the spec: the `bloom-filters` npm package's
`CountingBloomFilter` is external library code; §3/§4.2 describe it as an
array of counters over `nbHashes` hash positions, where `add` increments
the counters of all hash positions of the content, `remove` decrements
them with an underflow guard, and `has` tests that all of them are
positive.  The library's k deterministic hash functions are modelled by a
concrete seeded polynomial family; the float formula sizing the filter
from `BLOOM_FILTER_ESTIMATED_FILE_COUNT` / `BLOOM_FILTER_ERROR_RATE` is
abstracted into the resulting `(size, nbHashes)` configuration pair. -/

structure CountingBloomFilter where
  size : Nat
  nbHashes : Nat
  counters : List Nat
deriving DecidableEq, Repr

/-- Position of the `seed`-th hash of a payload in the counter array. -/
def bloomIndex (size seed : Nat) (c : Content) : Nat :=
  (c.foldl (fun a b => a * 31 + b + 1) (seed * 2654435761 + 1)) % size

/-- Sizing configuration derived from the two environment parameters. -/
structure FilterConfig where
  size : Nat
  nbHashes : Nat
deriving DecidableEq, Repr

/-- Modelled from the spec: `CountingBloomFilter.create` builds a filter
with all counters zero, sized per configuration. -/
def CountingBloomFilter.create (cfg : FilterConfig) : CountingBloomFilter :=
  ⟨cfg.size, cfg.nbHashes, List.replicate cfg.size 0⟩

/-- Membership: all hash positions have a positive counter. -/
def CountingBloomFilter.has (flt : CountingBloomFilter) (c : Content) : Bool :=
  (List.range flt.nbHashes).all
    (fun i => 0 < flt.counters.getD (bloomIndex flt.size i c) 0)

/-- Add: increment the counter at every hash position. -/
def CountingBloomFilter.add (flt : CountingBloomFilter) (c : Content) :
    CountingBloomFilter :=
  { flt with
    counters := (List.range flt.nbHashes).foldl
      (fun cs i =>
        cs.set (bloomIndex flt.size i c) (cs.getD (bloomIndex flt.size i c) 0 + 1))
      flt.counters }

/-- Remove: decrement the counter at every hash position, guarded against
underflow (truncated subtraction). -/
def CountingBloomFilter.remove (flt : CountingBloomFilter) (c : Content) :
    CountingBloomFilter :=
  { flt with
    counters := (List.range flt.nbHashes).foldl
      (fun cs i =>
        cs.set (bloomIndex flt.size i c) (cs.getD (bloomIndex flt.size i c) 0 - 1))
      flt.counters }

/-- The serialized snapshot stored in Redis by `saveBloomFilter`: the
filter's field set as JSON. -/
structure FilterJSON where
  size : Nat
  nbHashes : Nat
  counters : List Nat
deriving DecidableEq, Repr

/-- Serialization (`filter.saveAsJSON()`). -/
def CountingBloomFilter.toJSON (flt : CountingBloomFilter) : FilterJSON :=
  ⟨flt.size, flt.nbHashes, flt.counters⟩

/-- Deserialization (`CountingBloomFilter.fromJSON`). -/
def CountingBloomFilter.fromJSON (j : FilterJSON) : CountingBloomFilter :=
  ⟨j.size, j.nbHashes, j.counters⟩

/-- Well-formedness: the counter array has exactly `size` entries and the
filter has at least one cell, as `create` guarantees. -/
def CountingBloomFilter.WF (flt : CountingBloomFilter) : Prop :=
  flt.counters.length = flt.size ∧ 0 < flt.size

/-! ## Redis keyspace (`redisClient.js`)

The durable store is an association list of string keys to string values.
`set` overwrites in place or appends; `get` returns the first binding;
`del` removes a key.  The 30-day TTLs attached by `_saveFileInfo` go
through `setExpire`, modelled separately below as the command it issues. -/

abbrev KVStore := List (String × String)

/-- Redis SET. -/
def setKV (kv : KVStore) (k v : String) : KVStore :=
  if kv.any (fun p => p.1 == k) then
    kv.map (fun p => if p.1 == k then (k, v) else p)
  else kv ++ [(k, v)]

/-- Redis GET (`null` becomes `none`). -/
def getKV (kv : KVStore) (k : String) : Option String :=
  (kv.find? (fun p => p.1 == k)).map (fun p => p.2)

/-- Redis DEL. -/
def delKV (kv : KVStore) (k : String) : KVStore :=
  kv.filter (fun p => !(p.1 == k))

/-- Key of a fileId's stored content hash. -/
def hashKey (fileId : String) : String := "file:" ++ fileId ++ ":hash"

/-- Key of a fileId's stored original filename. -/
def filenameKey (fileId : String) : String := "file:" ++ fileId ++ ":filename"

/-- A single-star glob such as the code's two patterns: a literal stem, a
star, a literal tail. -/
structure GlobPat where
  stem : String
  tail : String
deriving DecidableEq, Repr

/-- Glob matching for single-star patterns. -/
def globMatch (p : GlobPat) (key : String) : Bool :=
  p.stem.data.isPrefixOf key.data && p.tail.data.isSuffixOf key.data &&
    decide (p.stem.data.length + p.tail.data.length ≤ key.data.length)

/-- Fuelled worker for `deleteByPattern`: each iteration scans a batch of
up to 100 keys of the snapshot taken at scan start, deletes the matching
ones, and advances the cursor; the loop ends when the cursor reports zero
(the snapshot is exhausted). -/
def scanDeleteGo : Nat → KVStore → GlobPat → KVStore → KVStore
  | _, [], _, kv => kv
  | 0, _ :: _, _, kv => kv
  | fuel + 1, x :: xs, pat, kv =>
      let keys := (((x :: xs).take 100).map Prod.fst).filter (globMatch pat)
      scanDeleteGo fuel (xs.drop 99) pat (kv.filter (fun p => decide (p.1 ∉ keys)))

/-- The embedding of `RedisClient.deleteByPattern`: a cursor-based SCAN
over the keyspace in batches of 100, deleting every key matching the
pattern, until the cursor reports zero. -/
def deleteByPattern (kv : KVStore) (pat : GlobPat) : KVStore :=
  scanDeleteGo kv.length kv pat kv

/-- A key expiry command sent to Redis: either an absolute unix timestamp
(`EXPIREAT`) or a relative TTL in seconds (`EXPIRE`). -/
inductive ExpireCmd where
  | expireAt (unixSeconds : Nat)
  | expireRel (seconds : Nat)
deriving DecidableEq, Repr

/-- Milliseconds per day. -/
def msPerDay : Nat := 86400000

/-- Milliseconds from local midnight to 03:00:00.000. -/
def threeAMms : Nat := 10800000

/-- The embedding of `new Date().setHours(3, 0, 0, 0)`: 03:00:00.000 of
the current local calendar day, with the clock carried as local-frame
milliseconds. -/
def setHours3 (nowMs : Nat) : Nat := nowMs - nowMs % msPerDay + threeAMms

/-- The embedding of `RedisClient.setExpire`: with `second = 0` (the
default) it issues `EXPIREAT` at 03:00 of the current day (`parseInt`
truncates the millisecond timestamp to seconds), otherwise a relative
`EXPIRE`. -/
def setExpire (key : String) (nowMs second : Nat) : String × ExpireCmd :=
  if second = 0 then (key, .expireAt (setHours3 nowMs / 1000))
  else (key, .expireRel second)

/-- The default value of `setExpire`'s `second` parameter. -/
def setExpireDefaultSecond : Nat := 0

/-! ## FileRecordStore helpers missing from the sources

`internetFileService.js` calls `redisClient.deleteFileInfoByFileId` and
`redisClient.deleteFileInfoWithSameHash`, which do not appear in the
`redisClient.js` available here; they are modelled from §4.4 of the
spec. -/

/-- Modelled from the spec: `redisClient.deleteFileInfoByFileId` —
"deleteByFileId(fileId) removes both entries" (the hash entry and the
filename entry of the fileId). -/
def deleteFileInfoByFileId (kv : KVStore) (fileId : String) : KVStore :=
  delKV (delKV kv (hashKey fileId)) (filenameKey fileId)

/-- Recover `fid` from a key of the form `hashKey fid`. -/
def extractHashKeyId (key : String) : Option String :=
  let stem := "file:".data
  let tail := ":hash".data
  if stem.isPrefixOf key.data ∧ tail.isSuffixOf key.data ∧
      stem.length + tail.length ≤ key.data.length then
    some (String.mk ((key.data.drop stem.length).take
      (key.data.length - stem.length - tail.length)))
  else none

/-- Modelled from the spec: `redisClient.deleteFileInfoWithSameHash` —
"deleteAllWithHash(hash) performs a full keyspace scan ... to find and
remove every record sharing a content hash": every fileId whose stored
hash entry holds the given hash loses both of its entries. -/
def deleteFileInfoWithSameHash (kv : KVStore) (fileHash : String) : KVStore :=
  let ids := kv.filterMap (fun p =>
    match extractHashKeyId p.1 with
    | some fid => if p.2 == fileHash then some fid else none
    | none => none)
  kv.filter (fun p => decide (∀ fid ∈ ids, p.1 ≠ hashKey fid ∧ p.1 ≠ filenameKey fid))

/-! ## RemoteArchive (`s3Service.js`) -/

structure S3Config where
  bucket : String
  region : String
deriving DecidableEq, Repr

/-- An object held by the remote archive. -/
structure RemoteObject where
  key : String
  content : Content
  metadataOriginalName : String
deriving DecidableEq, Repr

/-- The embedding of `S3Service._generateS3Key`: the caller-supplied key
scheme, defined for `type` user or room only. -/
def generateS3Key (type id filename : String) : Except String String :=
  if type == "user" then .ok ("user/" ++ id ++ "/" ++ filename)
  else if type == "room" then .ok ("room/" ++ id ++ "/" ++ filename)
  else .error ("[S3Service] Invalid type: " ++ type)

/-- Location URL returned by a successful remote upload. -/
def s3Location (cfg : S3Config) (key : String) : String :=
  "https://" ++ cfg.bucket ++ ".s3." ++ cfg.region ++ ".amazonaws.com/" ++ key

/-- The embedding of `S3Service.uploadFile`: put the blob under the
generated key with the original name as metadata and return the
location. -/
def s3UploadFile (cfg : S3Config) (remote : List RemoteObject) (body : Content)
    (metadataName filename type id : String) :
    Except String (List RemoteObject × String) :=
  match generateS3Key type id filename with
  | .error e => .error e
  | .ok key => .ok (remote ++ [⟨key, body, metadataName⟩], s3Location cfg key)

/-! ## FileService (`internetFileService.js`)

The orchestrator's state: the flat uploads directory, the in-memory
filter, the Redis keyspace, the serialized filter snapshot held in Redis,
and the remote archive.  Each operation is state passing; upload and
delete additionally emit the trace of their effectful steps, in execution
order, so the ordering properties of §5 are statable.  `randomUUID` is an
effect of the environment, so the generated fileId is an input. -/

structure FileEntry where
  name : String
  content : Content
deriving DecidableEq, Repr

structure ServiceState where
  files : List FileEntry
  bloomFilter : CountingBloomFilter
  kv : KVStore
  savedFilter : Option FilterJSON
  remote : List RemoteObject
deriving DecidableEq, Repr

/-- An uploaded multipart file (`req.file`). -/
structure UploadedFile where
  originalname : String
  buffer : Content
deriving DecidableEq, Repr

/-- What `uploadFile` returns to its caller: exactly the two fields the
code builds. -/
structure UploadResult where
  fileId : String
  fileName : String
deriving DecidableEq, Repr

/-- The effectful steps of upload and delete, in execution order. -/
inductive Event where
  | recordWrite (fileId : String)
  | dedupCheck (present : Bool)
  | blobWrite (name : String)
  | filterAdd
  | snapshotSave
  | filterRemove
  | blobUnlink (name : String)
  | recordDeleteById (fileId : String)
  | recordDeleteByHash (hash : String)
deriving DecidableEq, Repr

/-- The embedding of `_loadFilter`: deserialize the snapshot if present,
else create a fresh filter from configuration and persist it at once. -/
def loadFilter (cfg : FilterConfig) (saved : Option FilterJSON) :
    CountingBloomFilter × Option FilterJSON :=
  match saved with
  | none =>
      let flt := CountingBloomFilter.create cfg
      (flt, some flt.toJSON)
  | some j => (CountingBloomFilter.fromJSON j, some j)

/-- The embedding of `_generateUniqueFilename`: content hash followed by
the original extension. -/
def generateUniqueFilename (filename fileHash : String) : String :=
  fileHash ++ extname filename

/-- The embedding of `_saveFileInfo`: write the hash entry then the
filename entry (each also gets a 30-day relative TTL through
`setExpire`, see `setExpire`). -/
def saveFileInfo (kv : KVStore) (fileId fileHash originalFilename : String) :
    KVStore :=
  setKV (setKV kv (hashKey fileId) fileHash) (filenameKey fileId) originalFilename

/-- The body of `uploadFile` once a file is present: persist the record,
check the filter, and only when the content is new write the blob, add to
the filter and persist the snapshot. -/
def uploadOk (s : ServiceState) (f : UploadedFile) (fileId : String) :
    ServiceState × UploadResult × List Event :=
  let fileBuffer := f.buffer
  let originalFilename := decodeURIComponent f.originalname
  let fileHash := sha256Hex fileBuffer
  let kv1 := saveFileInfo s.kv fileId fileHash originalFilename
  let exist := s.bloomFilter.has fileBuffer
  let fullFilename := generateUniqueFilename originalFilename fileHash
  if exist then
    ({ s with kv := kv1 }, ⟨fileId, originalFilename⟩,
     [.recordWrite fileId, .dedupCheck true])
  else
    let flt := s.bloomFilter.add fileBuffer
    ({ s with
        kv := kv1
        files := s.files ++ [⟨fullFilename, fileBuffer⟩]
        bloomFilter := flt
        savedFilter := some flt.toJSON },
     ⟨fileId, originalFilename⟩,
     [.recordWrite fileId, .dedupCheck false, .blobWrite fullFilename,
      .filterAdd, .snapshotSave])

/-- The embedding of `InternetFileService.uploadFile`: reject an absent
file, otherwise run the upload body. -/
def uploadFile (s : ServiceState) (file : Option UploadedFile) (fileId : String) :
    Except String (ServiceState × UploadResult × List Event) :=
  match file with
  | none => .error "No file was uploaded."
  | some f => .ok (uploadOk s f fileId)

/-- What a download resolves to: a local stream with the stored filename,
a staging-area push with the remote location, or the bare `undefined` the
unimplemented google-cloud branch falls through to. -/
inductive DownloadOutcome where
  | localFile (stream : Content) (filename : Option String)
  | stagingArea (fileId : String) (filename : Option String) (location : String)
  | undefinedResult
deriving DecidableEq, Repr

/-- Truthiness of an optional query parameter (`!type` / `!id`): absent
and empty strings are falsy. -/
def truthy : Option String → Bool
  | none => false
  | some s => !(s == "")

/-- The embedding of `InternetFileService.download`: resolve the stored
hash, locate the blob by prefix match over the directory listing (a `null`
hash coerces to the string `"null"` inside `startsWith`), fail with
not-found when nothing matches, then dispatch on `way`. -/
def download (cfg : S3Config) (s : ServiceState) (fileId way : String)
    (type id : Option String) :
    Except String (ServiceState × DownloadOutcome) :=
  let fileHash := getKV s.kv (hashKey fileId)
  let searchKey := fileHash.getD "null"
  match s.files.find? (fun fl => searchKey.data.isPrefixOf fl.name.data) with
  | none => .error "File not found"
  | some matched =>
      if way == "local" then
        .ok (s, .localFile matched.content (getKV s.kv (filenameKey fileId)))
      else if way == "staging-area" then
        if !truthy type || !truthy id then
          .error "Type and id query parameters are required for staging-area download."
        else
          let orig := getKV s.kv (filenameKey fileId)
          let meta := encodeURIComponent (orig.getD "null")
          match s3UploadFile cfg s.remote matched.content meta matched.name
              (type.getD "") (id.getD "") with
          | .error e => .error e
          | .ok (remote2, loc) =>
              .ok ({ s with remote := remote2 }, .stagingArea fileId orig loc)
      else if way == "google-cloud" then
        .ok (s, .undefinedResult)
      else
        .error "Invalid download way."

/-- The embedding of `InternetFileService.deleteFile`: resolve the stored
hash, locate the blob by substring match (`includes`) over the directory
listing, fail with not-found when nothing matches, then remove the blob's
content from the filter, unlink the blob, persist the snapshot, delete
the fileId's record, and delete every record sharing the hash. -/
def deleteFile (s : ServiceState) (fileId : String) :
    Except String (ServiceState × String × List Event) :=
  let fileHash := getKV s.kv (hashKey fileId)
  let searchKey := fileHash.getD "null"
  match s.files.find? (fun fl => containsSub searchKey.data fl.name.data) with
  | none => .error "File not found"
  | some matched =>
      let flt := s.bloomFilter.remove matched.content
      let files2 := s.files.filter (fun fl => !(fl.name == matched.name))
      let kv2 := deleteFileInfoByFileId s.kv fileId
      let kv3 := deleteFileInfoWithSameHash kv2 searchKey
      .ok ({ s with
              files := files2
              bloomFilter := flt
              savedFilter := some flt.toJSON
              kv := kv3 },
           "File deleted successfully",
           [.filterRemove, .blobUnlink matched.name, .snapshotSave,
            .recordDeleteById fileId, .recordDeleteByHash searchKey])

/-- Pattern deleting all stored hash entries. -/
def hashPattern : GlobPat := ⟨"file:", ":hash"⟩

/-- Pattern deleting all stored filename entries. -/
def filenamePattern : GlobPat := ⟨"file:", ":filename"⟩

/-- The embedding of `InternetFileService.deleteAllFiles`: unlink every
blob, rebuild a fresh filter from configuration, persist its snapshot,
and scan-delete all record keys by the two patterns. -/
def deleteAllFiles (cfg : FilterConfig) (s : ServiceState) :
    ServiceState × String :=
  let flt := CountingBloomFilter.create cfg
  let kv2 := deleteByPattern s.kv hashPattern
  let kv3 := deleteByPattern kv2 filenamePattern
  ({ s with
      files := []
      bloomFilter := flt
      savedFilter := some flt.toJSON
      kv := kv3 },
   "All files deleted successfully")

/-! ## Derived notions and concrete test fixtures -/

/-- Upload result component of an upload outcome, when it succeeded. -/
def uploadResultOf (r : Except String (ServiceState × UploadResult × List Event)) :
    Option UploadResult :=
  match r with
  | .ok t => some t.2.1
  | .error _ => none

/-- Number of blobs in the uploads directory whose name starts with the
given content hash. -/
def countBlobs (s : ServiceState) (h : String) : Nat :=
  (s.files.filter (fun fl => h.data.isPrefixOf fl.name.data)).length

/-- The upload step sequence of spec §4.6, written from the spec's words:
persist the FileRecord, check the index, and only when the content is
absent write the blob, add it to the index, and persist the snapshot. -/
def specUploadTrace (fid blobName : String) (present : Bool) : List Event :=
  [.recordWrite fid, .dedupCheck present] ++
    (if present then [] else [.blobWrite blobName, .filterAdd, .snapshotSave])

/-- A small well-formed filter. -/
def flt0 : CountingBloomFilter := ⟨8, 2, List.replicate 8 0⟩

/-- Remote-archive configuration for concrete runs. -/
def cfg0 : S3Config := ⟨"bkt", "reg"⟩

/-- The empty initial service state. -/
def st0 : ServiceState := ⟨[], flt0, [], some flt0.toJSON, []⟩

/-- A concrete uploaded file with a percent-escaped original name. -/
def fileA : UploadedFile := ⟨"hello%20x.txt", [1, 2, 3]⟩

/-- Content hash of `fileA`. -/
def hashA : String := sha256Hex [1, 2, 3]

/-- State after a first upload of `fileA` (fileId `fA`): one blob, one
record pair, content present in the filter. -/
def stHasA : ServiceState := (uploadOk st0 fileA "fA").1

/-- State after two uploads of `fileA` (fileIds `fA` then `f2`): one blob,
two record pairs sharing the content hash. -/
def stTwo : ServiceState := (uploadOk stHasA fileA "f2").1

/-- A state whose record for `f1` stores hash `aaaa` with a matching blob
on disk, used to drive the download dispatcher. -/
def stC : ServiceState :=
  ⟨[⟨"aaaa.txt", [9]⟩], flt0,
   [(hashKey "f1", "aaaa"), (filenameKey "f1", "orig.txt")],
   some flt0.toJSON, []⟩

/-- A state whose record for `f1` stores hash `abc` while the only blob
name contains `abc` strictly inside (not as a prefix). -/
def stD : ServiceState :=
  ⟨[⟨"xabc", [9]⟩], flt0, [(hashKey "f1", "abc")], some flt0.toJSON, []⟩

/-! ## Supporting lemmas: counter arrays -/

theorem getD_set_incr_le (cs : List Nat) (q p : Nat) :
    cs.getD p 0 ≤ (cs.set q (cs.getD q 0 + 1)).getD p 0 := by
  rcases Nat.lt_or_ge q cs.length with hq | hq
  · by_cases hpq : q = p
    · subst hpq
      simp only [List.getD_eq_getElem?_getD]
      rw [List.getElem?_set_self hq]
      simp
    · simp only [List.getD_eq_getElem?_getD]
      rw [List.getElem?_set_ne hpq]
  · rw [List.set_eq_of_length_le hq]

theorem foldl_incr_getD_le (g : Nat → Nat) (l : List Nat) (cs : List Nat) (p : Nat) :
    cs.getD p 0 ≤
      (l.foldl (fun cs2 i => cs2.set (g i) (cs2.getD (g i) 0 + 1)) cs).getD p 0 := by
  induction l generalizing cs with
  | nil => exact Nat.le_refl _
  | cons a t ih => exact Nat.le_trans (getD_set_incr_le cs (g a) p) (ih _)

theorem foldl_set_length (step : List Nat → Nat → List Nat)
    (hstep : ∀ cs i, (step cs i).length = cs.length) (l : List Nat) (cs : List Nat) :
    (l.foldl step cs).length = cs.length := by
  induction l generalizing cs with
  | nil => rfl
  | cons a t ih => rw [List.foldl_cons, ih, hstep]

theorem foldl_incr_getD_pos (g : Nat → Nat) (l : List Nat) : ∀ (cs : List Nat),
    (∀ i ∈ l, g i < cs.length) → ∀ j ∈ l,
    0 < (l.foldl (fun cs2 i => cs2.set (g i) (cs2.getD (g i) 0 + 1)) cs).getD (g j) 0 := by
  induction l with
  | nil => intro cs _ j hj; cases hj
  | cons a t ih =>
      intro cs hrange j hj
      rw [List.foldl_cons]
      rcases List.mem_cons.1 hj with hja | hjt
      · subst hja
        have h1 : 0 < (cs.set (g j) (cs.getD (g j) 0 + 1)).getD (g j) 0 := by
          rw [List.getD_eq_getElem?_getD,
            List.getElem?_set_self (hrange j (List.mem_cons_self _ _))]
          simp
        exact Nat.lt_of_lt_of_le h1 (foldl_incr_getD_le g t _ (g j))
      · apply ih _ _ j hjt
        intro i hi
        rw [List.length_set]
        exact hrange i (List.mem_cons_of_mem _ hi)

theorem getD_replicate_zero (n i : Nat) : (List.replicate n (0 : Nat)).getD i 0 = 0 := by
  rw [List.getD_eq_getElem?_getD]
  rcases Nat.lt_or_ge i n with h | h
  · rw [List.getElem?_eq_getElem (by simpa using h)]
    simp [List.getElem_replicate]
  · rw [List.getElem?_eq_none (by simpa using h)]
    rfl

/-! ## Supporting lemmas: the deduplication index -/

theorem add_counters_length (flt : CountingBloomFilter) (c : Content) :
    (flt.add c).counters.length = flt.counters.length :=
  foldl_set_length _ (fun cs _ => List.length_set cs _ _) _ _

theorem has_add_self (flt : CountingBloomFilter) (c : Content) (hwf : flt.WF) :
    (flt.add c).has c = true := by
  obtain ⟨hlen, hpos⟩ := hwf
  simp only [CountingBloomFilter.has, CountingBloomFilter.add, List.all_eq_true]
  intro i hi
  rw [decide_eq_true_eq]
  exact foldl_incr_getD_pos (fun k => bloomIndex flt.size k c) (List.range flt.nbHashes)
    flt.counters (fun k _ => by rw [hlen]; exact Nat.mod_lt _ hpos) i hi

theorem has_add_mono (flt : CountingBloomFilter) (c d : Content)
    (h : flt.has c = true) : (flt.add d).has c = true := by
  simp only [CountingBloomFilter.has, CountingBloomFilter.add, List.all_eq_true] at h ⊢
  intro i hi
  have h1 := h i hi
  rw [decide_eq_true_eq] at h1 ⊢
  exact Nat.lt_of_lt_of_le h1
    (foldl_incr_getD_le (fun k => bloomIndex flt.size k d) _ flt.counters _)

theorem has_foldl_add (later : List Content) : ∀ (flt : CountingBloomFilter)
    (c : Content), flt.has c = true →
    (later.foldl CountingBloomFilter.add flt).has c = true := by
  induction later with
  | nil => intro flt c h; exact h
  | cons d t ih =>
      intro flt c h
      rw [List.foldl_cons]
      exact ih _ _ (has_add_mono flt c d h)

theorem fromJSON_toJSON (flt : CountingBloomFilter) :
    CountingBloomFilter.fromJSON flt.toJSON = flt := rfl

theorem create_has_false (cfg : FilterConfig) (hk : 0 < cfg.nbHashes) (x : Content) :
    (CountingBloomFilter.create cfg).has x = false := by
  rw [Bool.eq_false_iff]
  intro hall
  simp only [CountingBloomFilter.has, CountingBloomFilter.create, List.all_eq_true] at hall
  have h0 := hall 0 (List.mem_range.2 hk)
  rw [decide_eq_true_eq, getD_replicate_zero] at h0
  exact Nat.lt_irrefl 0 h0

/-! ## Supporting lemmas: the Redis keyspace -/

theorem getKV_delKV_self (kv : KVStore) (k : String) : getKV (delKV kv k) k = none := by
  have hfind : (delKV kv k).find? (fun p => p.1 == k) = none := by
    rw [List.find?_eq_none]
    intro p hp
    have h2 := (List.mem_filter.1 hp).2
    simpa using h2
  simp [getKV, hfind]

theorem getKV_delKV_ne (kv : KVStore) (k k2 : String) (h : k2 ≠ k) :
    getKV (delKV kv k) k2 = getKV kv k2 := by
  induction kv with
  | nil => rfl
  | cons p t ih =>
      simp only [getKV, delKV, List.filter_cons] at ih ⊢
      by_cases hp : p.1 = k
      · have hb1 : (!(p.1 == k)) = false := by simp [hp]
        have hb2 : (p.1 == k2) = false := by
          rw [beq_eq_false_iff_ne, hp]
          exact Ne.symm h
        rw [hb1]
        simp only [Bool.false_eq_true, if_false]
        rw [List.find?_cons_of_neg _ (by simp [hb2])]
        exact ih
      · have hb1 : (!(p.1 == k)) = true := by simp [hp]
        rw [hb1]
        simp only [if_true]
        by_cases hp2 : p.1 = k2
        · rw [List.find?_cons_of_pos _ (by simp [hp2]),
            List.find?_cons_of_pos _ (by simp [hp2])]
        · rw [List.find?_cons_of_neg _ (by simp [hp2]),
            List.find?_cons_of_neg _ (by simp [hp2])]
          exact ih

theorem getKV_filter_none (kv : KVStore) (q : String × String → Bool) (k : String)
    (h : getKV kv k = none) : getKV (kv.filter q) k = none := by
  simp only [getKV, Option.map_eq_none'] at h ⊢
  rw [List.find?_eq_none] at h ⊢
  intro p hp
  exact h p (List.mem_filter.1 hp).1

theorem mem_of_getKV (kv : KVStore) (k v : String) (h : getKV kv k = some v) :
    (k, v) ∈ kv := by
  unfold getKV at h
  rcases Option.map_eq_some'.1 h with ⟨p, hfind, hv⟩
  have hmem := List.mem_of_find?_eq_some hfind
  have hkey := List.find?_some hfind
  have hp : p = (k, v) := by
    cases p with
    | mk a b =>
        simp only at hkey hv
        rw [beq_iff_eq] at hkey
        rw [hkey, hv]
  rwa [hp] at hmem

theorem find?_map_overwrite (kv : KVStore) (k v : String)
    (h : kv.any (fun p => p.1 == k) = true) :
    (kv.map (fun p => if p.1 == k then (k, v) else p)).find? (fun p => p.1 == k) =
      some (k, v) := by
  induction kv with
  | nil => simp at h
  | cons p t ih =>
      rw [List.any_cons] at h
      by_cases hp : p.1 = k
      · have hb : (p.1 == k) = true := by simp [hp]
        simp only [List.map_cons, hb, if_true]
        rw [List.find?_cons_of_pos _ (by simp)]
      · have hb : (p.1 == k) = false := by simp [hp]
        rw [hb] at h
        simp only [Bool.false_or] at h
        simp only [List.map_cons, hb, Bool.false_eq_true, if_false]
        rw [List.find?_cons_of_neg _ (by simp [hb])]
        exact ih h

theorem find?_map_overwrite_ne (kv : KVStore) (k k2 v : String) (h : k2 ≠ k) :
    (kv.map (fun p => if p.1 == k then (k, v) else p)).find? (fun p => p.1 == k2) =
      kv.find? (fun p => p.1 == k2) := by
  induction kv with
  | nil => rfl
  | cons p t ih =>
      by_cases hp : p.1 = k
      · have hb : (p.1 == k) = true := by simp [hp]
        simp only [List.map_cons, hb, if_true]
        have hk2 : (k == k2) = false := by
          rw [beq_eq_false_iff_ne]
          exact Ne.symm h
        have hp2 : (p.1 == k2) = false := by
          rw [beq_eq_false_iff_ne, hp]
          exact Ne.symm h
        rw [List.find?_cons_of_neg _ (by simp [hk2]),
          List.find?_cons_of_neg _ (by simp [hp2])]
        exact ih
      · have hb : (p.1 == k) = false := by simp [hp]
        simp only [List.map_cons, hb, Bool.false_eq_true, if_false]
        by_cases hp2 : p.1 = k2
        · rw [List.find?_cons_of_pos _ (by simp [hp2]),
            List.find?_cons_of_pos _ (by simp [hp2])]
        · rw [List.find?_cons_of_neg _ (by simp [hp2]),
            List.find?_cons_of_neg _ (by simp [hp2])]
          exact ih

theorem getKV_setKV_self (kv : KVStore) (k v : String) :
    getKV (setKV kv k v) k = some v := by
  unfold setKV
  by_cases h : kv.any (fun p => p.1 == k) = true
  · rw [if_pos h]
    show ((kv.map fun p => if p.1 == k then (k, v) else p).find?
        (fun p => p.1 == k)).map (fun p => p.2) = some v
    rw [find?_map_overwrite kv k v h]
    rfl
  · rw [if_neg h]
    have hnone : kv.find? (fun p => p.1 == k) = none := by
      rw [List.find?_eq_none]
      intro x hx hbeq
      exact h (List.any_eq_true.2 ⟨x, hx, hbeq⟩)
    show ((kv ++ [(k, v)]).find? (fun p => p.1 == k)).map (fun p => p.2) = some v
    rw [List.find?_append, hnone]
    simp

theorem getKV_setKV_ne (kv : KVStore) (k k2 v : String) (h : k2 ≠ k) :
    getKV (setKV kv k v) k2 = getKV kv k2 := by
  unfold setKV
  by_cases hany : kv.any (fun p => p.1 == k) = true
  · rw [if_pos hany]
    show ((kv.map fun p => if p.1 == k then (k, v) else p).find?
        (fun p => p.1 == k2)).map (fun p => p.2) =
      (kv.find? (fun p => p.1 == k2)).map (fun p => p.2)
    rw [find?_map_overwrite_ne kv k k2 v h]
  · rw [if_neg hany]
    have hk2 : (k == k2) = false := by
      rw [beq_eq_false_iff_ne]
      exact Ne.symm h
    show ((kv ++ [(k, v)]).find? (fun p => p.1 == k2)).map (fun p => p.2) =
      (kv.find? (fun p => p.1 == k2)).map (fun p => p.2)
    rw [List.find?_append]
    cases hf : kv.find? (fun p => p.1 == k2) with
    | some p => simp
    | none => simp [hk2]

/-! ## Supporting lemmas: record keys -/

theorem hashKey_inj (a b : String) (h : hashKey a = hashKey b) : a = b := by
  unfold hashKey at h
  have hd := congrArg String.data h
  simp only [String.data_append] at hd
  rw [List.append_assoc, List.append_assoc] at hd
  have h2 := List.append_cancel_left hd
  have h3 := List.append_cancel_right h2
  exact String.ext h3

theorem hashKey_ne_filenameKey (a b : String) : hashKey a ≠ filenameKey b := by
  intro h
  have hd := congrArg String.data h
  simp only [hashKey, filenameKey, String.data_append] at hd
  have h1 : (['f', 'i', 'l', 'e', ':'] ++ a.data ++
      [':', 'h', 'a', 's', 'h']).getLast? = some 'h' := by
    rw [show ([':', 'h', 'a', 's', 'h'] : List Char) =
      [':', 'h', 'a', 's'] ++ ['h'] from rfl]
    rw [← List.append_assoc]
    exact List.getLast?_concat _
  have h2 : (['f', 'i', 'l', 'e', ':'] ++ b.data ++
      [':', 'f', 'i', 'l', 'e', 'n', 'a', 'm', 'e']).getLast? = some 'e' := by
    rw [show ([':', 'f', 'i', 'l', 'e', 'n', 'a', 'm', 'e'] : List Char) =
      [':', 'f', 'i', 'l', 'e', 'n', 'a', 'm'] ++ ['e'] from rfl]
    rw [← List.append_assoc]
    exact List.getLast?_concat _
  rw [hd, h2] at h1
  simp at h1

theorem extract_hashKey (fid : String) : extractHashKeyId (hashKey fid) = some fid := by
  unfold extractHashKeyId hashKey
  have hdata : ("file:" ++ fid ++ ":hash").data =
      "file:".data ++ (fid.data ++ ":hash".data) := by
    simp [List.append_assoc]
  rw [hdata]
  have hlen5 : ("file:".data).length = 5 := rfl
  have hlen5b : (":hash".data).length = 5 := rfl
  rw [if_pos]
  · congr 1
    rw [hlen5]
    have hdrop : ("file:".data ++ (fid.data ++ ":hash".data)).drop 5 =
        fid.data ++ ":hash".data := List.drop_left' hlen5
    rw [hdrop]
    have hlentot : ("file:".data ++ (fid.data ++ ":hash".data)).length =
        5 + (fid.data.length + 5) := by
      have hsl : fid.length = fid.data.length := rfl
      simp [List.length_append]
      omega
    rw [hlentot, hlen5b]
    have harith : 5 + (fid.data.length + 5) - 5 - 5 = fid.data.length := by omega
    rw [harith]
    have htake : (fid.data ++ ":hash".data).take fid.data.length = fid.data :=
      List.take_left _ _
    rw [htake]
  · refine ⟨?_, ?_, ?_⟩
    · exact List.isPrefixOf_iff_prefix.2 (List.prefix_append _ _)
    · exact List.isSuffixOf_iff_suffix.2
        (by rw [← List.append_assoc]; exact List.suffix_append _ _)
    · simp only [List.length_append, hlen5, hlen5b]
      omega

/-! ## Supporting lemmas: pattern scan deletion -/

theorem scanDeleteGo_eq (pat : GlobPat) : ∀ (fuel : Nat) (snapshot kv : KVStore),
    snapshot.length ≤ 100 * fuel →
    scanDeleteGo fuel snapshot pat kv =
      kv.filter (fun p => !(globMatch pat p.1 && decide (p.1 ∈ snapshot.map Prod.fst))) := by
  intro fuel
  induction fuel with
  | zero =>
      intro snapshot kv h
      have hs : snapshot = [] := by
        rw [← List.length_eq_zero]
        omega
      subst hs
      simp [scanDeleteGo]
  | succ n ih =>
      intro snapshot kv h
      cases snapshot with
      | nil => simp [scanDeleteGo]
      | cons x xs =>
          have hdrop100 : (x :: xs).drop 100 = xs.drop 99 := rfl
          have hsplit : (x :: xs).map Prod.fst =
              ((x :: xs).take 100).map Prod.fst ++ ((xs.drop 99).map Prod.fst) := by
            rw [← hdrop100, ← List.map_append, List.take_append_drop]
          rw [scanDeleteGo]
          rw [ih (xs.drop 99) _ (by
            have hlx : (x :: xs).length = xs.length + 1 := rfl
            rw [List.length_drop]
            omega)]
          rw [List.filter_filter]
          apply List.filter_congr
          intro p hp
          have htake : ((x :: xs).take 100).map Prod.fst =
              x.1 :: (xs.map Prod.fst).take 99 := by
            rw [show (100 : Nat) = 99 + 1 from rfl, List.take_succ_cons,
              List.map_cons, List.map_take]
          have hdropm : (xs.drop 99).map Prod.fst = (xs.map Prod.fst).drop 99 :=
            List.map_drop _ _ _
          have hfull : (x :: xs).map Prod.fst =
              x.1 :: ((xs.map Prod.fst).take 99 ++ (xs.map Prod.fst).drop 99) := by
            rw [List.map_cons, List.take_append_drop]
          rw [htake, hdropm, hfull]
          by_cases hA : p.1 = x.1
          · rw [← hA]
            by_cases hg2 : globMatch pat p.1 = true <;>
              by_cases hB : p.1 ∈ (xs.map Prod.fst).take 99 <;>
              by_cases hC : p.1 ∈ (xs.map Prod.fst).drop 99 <;>
              simp [hg2, hB, hC, List.mem_filter, List.mem_append, List.mem_cons,
                -List.take_append_drop]
          · by_cases hg2 : globMatch pat p.1 = true <;>
              by_cases hB : p.1 ∈ (xs.map Prod.fst).take 99 <;>
              by_cases hC : p.1 ∈ (xs.map Prod.fst).drop 99 <;>
              simp [hg2, hA, hB, hC, List.mem_filter, List.mem_append, List.mem_cons,
                -List.take_append_drop]

theorem deleteByPattern_eq_filter (kv : KVStore) (pat : GlobPat) :
    deleteByPattern kv pat = kv.filter (fun p => !(globMatch pat p.1)) := by
  unfold deleteByPattern
  rw [scanDeleteGo_eq pat kv.length kv kv (Nat.le_mul_of_pos_left _ (by omega))]
  apply List.filter_congr
  intro p hp
  have hm : p.1 ∈ kv.map Prod.fst := List.mem_map_of_mem _ hp
  simp [hm]

/-! ## Supporting lemmas: upload -/

theorem uploadOk_result (s : ServiceState) (f : UploadedFile) (fid : String) :
    (uploadOk s f fid).2.1 = ⟨fid, decodeURIComponent f.originalname⟩ := by
  unfold uploadOk
  cases hb : s.bloomFilter.has f.buffer <;> simp [hb]

theorem uploadOk_kv (s : ServiceState) (f : UploadedFile) (fid : String) :
    (uploadOk s f fid).1.kv =
      saveFileInfo s.kv fid (sha256Hex f.buffer) (decodeURIComponent f.originalname) := by
  unfold uploadOk
  cases hb : s.bloomFilter.has f.buffer <;> simp [hb]

theorem uploadOk_of_has (s : ServiceState) (f : UploadedFile) (fid : String)
    (hb : s.bloomFilter.has f.buffer = true) :
    uploadOk s f fid =
      ({ s with kv := saveFileInfo s.kv fid (sha256Hex f.buffer)
                        (decodeURIComponent f.originalname) },
       ⟨fid, decodeURIComponent f.originalname⟩,
       [Event.recordWrite fid, Event.dedupCheck true]) := by
  unfold uploadOk
  simp [hb]

theorem uploadOk_of_not_has (s : ServiceState) (f : UploadedFile) (fid : String)
    (hb : s.bloomFilter.has f.buffer = false) :
    uploadOk s f fid =
      ({ s with
          kv := saveFileInfo s.kv fid (sha256Hex f.buffer)
                  (decodeURIComponent f.originalname),
          files := s.files ++ [⟨generateUniqueFilename (decodeURIComponent f.originalname)
                                 (sha256Hex f.buffer), f.buffer⟩],
          bloomFilter := s.bloomFilter.add f.buffer,
          savedFilter := some (s.bloomFilter.add f.buffer).toJSON },
       ⟨fid, decodeURIComponent f.originalname⟩,
       [Event.recordWrite fid, Event.dedupCheck false,
        Event.blobWrite (generateUniqueFilename (decodeURIComponent f.originalname)
          (sha256Hex f.buffer)),
        Event.filterAdd, Event.snapshotSave]) := by
  unfold uploadOk
  simp [hb]

theorem self_isPrefixOf_append (h ext : String) :
    (h.data).isPrefixOf ((h ++ ext).data) = true := by
  rw [List.isPrefixOf_iff_prefix, String.data_append]
  exact List.prefix_append _ _

theorem sameHash_removes_hashKey (kv2 : KVStore) (h fid2 : String)
    (hmem : (hashKey fid2, h) ∈ kv2) :
    getKV (deleteFileInfoWithSameHash kv2 h) (hashKey fid2) = none := by
  have hid : fid2 ∈ kv2.filterMap (fun p =>
      match extractHashKeyId p.1 with
      | some fidX => if p.2 == h then some fidX else none
      | none => none) := by
    rw [List.mem_filterMap]
    refine ⟨(hashKey fid2, h), hmem, ?_⟩
    rw [extract_hashKey]
    simp
  unfold deleteFileInfoWithSameHash
  simp only [getKV, Option.map_eq_none']
  rw [List.find?_eq_none]
  intro p hp
  have hpred := (List.mem_filter.1 hp).2
  rw [decide_eq_true_eq] at hpred
  intro hbeq
  rw [beq_iff_eq] at hbeq
  exact (hpred fid2 hid).1 hbeq

theorem sameHash_removes_filenameKey (kv2 : KVStore) (h fid2 : String)
    (hmem : (hashKey fid2, h) ∈ kv2) :
    getKV (deleteFileInfoWithSameHash kv2 h) (filenameKey fid2) = none := by
  have hid : fid2 ∈ kv2.filterMap (fun p =>
      match extractHashKeyId p.1 with
      | some fidX => if p.2 == h then some fidX else none
      | none => none) := by
    rw [List.mem_filterMap]
    refine ⟨(hashKey fid2, h), hmem, ?_⟩
    rw [extract_hashKey]
    simp
  unfold deleteFileInfoWithSameHash
  simp only [getKV, Option.map_eq_none']
  rw [List.find?_eq_none]
  intro p hp
  have hpred := (List.mem_filter.1 hp).2
  rw [decide_eq_true_eq] at hpred
  intro hbeq
  rw [beq_iff_eq] at hbeq
  exact (hpred fid2 hid).2 hbeq

/-! ## Claim theorems -/

/-- C5: for a well-formed counting filter, after `add(C)` the index
reports `has(C) = true`, no matter which further contents are added
afterwards (the claim's scenario of no intervening `remove` of `C`), and
the answer survives the serialize-then-deserialize round trip of the
snapshot. -/
theorem C5_add_has_roundtrip (flt : CountingBloomFilter) (c : Content)
    (later : List Content) (hwf : flt.WF) :
    ((later.foldl CountingBloomFilter.add (flt.add c)).has c = true) ∧
    ((CountingBloomFilter.fromJSON
        ((later.foldl CountingBloomFilter.add (flt.add c)).toJSON)).has c = true) := by
  have h1 := has_foldl_add later (flt.add c) c (has_add_self flt c hwf)
  exact ⟨h1, by rwa [fromJSON_toJSON]⟩

/-- C5 witness: a concrete filter, payload, and one later upload. -/
theorem C5_add_has_roundtrip_witness :
    flt0.WF ∧
    ((([[4, 5]] : List Content).foldl CountingBloomFilter.add
        (flt0.add [1, 2, 3])).has [1, 2, 3] = true ∧
     (CountingBloomFilter.fromJSON
        ((([[4, 5]] : List Content).foldl CountingBloomFilter.add
          (flt0.add [1, 2, 3])).toJSON)).has [1, 2, 3] = true) :=
  ⟨⟨by decide, by decide⟩,
   C5_add_has_roundtrip flt0 [1, 2, 3] [[4, 5]] ⟨by decide, by decide⟩⟩

/-- C6: within a single upload the effect trace equals the §4.6 sequence
(no reordering), the FileRecord write strictly precedes the dedup check,
it strictly precedes any blob write, and immediately after the upload the
returned fileId resolves to the content hash in the record store. -/
theorem C6_upload_order (s : ServiceState) (f : UploadedFile) (fid : String) :
    (uploadOk s f fid).2.2 =
      specUploadTrace fid
        (generateUniqueFilename (decodeURIComponent f.originalname) (sha256Hex f.buffer))
        (s.bloomFilter.has f.buffer) ∧
    (∃ rest, (uploadOk s f fid).2.2 =
      [Event.recordWrite fid] ++ [Event.dedupCheck (s.bloomFilter.has f.buffer)] ++ rest) ∧
    (s.bloomFilter.has f.buffer = false →
      ∃ mid rest, (uploadOk s f fid).2.2 =
        [Event.recordWrite fid] ++ mid ++
          [Event.blobWrite (generateUniqueFilename (decodeURIComponent f.originalname)
            (sha256Hex f.buffer))] ++ rest) ∧
    getKV (uploadOk s f fid).1.kv (hashKey fid) = some (sha256Hex f.buffer) := by
  refine ⟨?_, ?_, ?_, ?_⟩
  · unfold uploadOk specUploadTrace
    cases hb : s.bloomFilter.has f.buffer <;> simp [hb]
  · unfold uploadOk
    cases hb : s.bloomFilter.has f.buffer
    · exact ⟨[Event.blobWrite (generateUniqueFilename (decodeURIComponent f.originalname)
        (sha256Hex f.buffer)), Event.filterAdd, Event.snapshotSave], by simp [hb]⟩
    · exact ⟨[], by simp [hb]⟩
  · intro hb
    unfold uploadOk
    exact ⟨[Event.dedupCheck false], [Event.filterAdd, Event.snapshotSave], by simp [hb]⟩
  · rw [uploadOk_kv]
    unfold saveFileInfo
    rw [getKV_setKV_ne _ _ _ _ (hashKey_ne_filenameKey fid fid)]
    exact getKV_setKV_self _ _ _

/-- C6 witness: the ordering properties instantiated at a concrete state,
file, and fileId. -/
theorem C6_upload_order_witness :
    (uploadOk st0 fileA "f1").2.2 =
      specUploadTrace "f1"
        (generateUniqueFilename (decodeURIComponent fileA.originalname)
          (sha256Hex fileA.buffer))
        (st0.bloomFilter.has fileA.buffer) ∧
    (∃ rest, (uploadOk st0 fileA "f1").2.2 =
      [Event.recordWrite "f1"] ++
        [Event.dedupCheck (st0.bloomFilter.has fileA.buffer)] ++ rest) ∧
    (st0.bloomFilter.has fileA.buffer = false →
      ∃ mid rest, (uploadOk st0 fileA "f1").2.2 =
        [Event.recordWrite "f1"] ++ mid ++
          [Event.blobWrite (generateUniqueFilename (decodeURIComponent fileA.originalname)
            (sha256Hex fileA.buffer))] ++ rest) ∧
    getKV (uploadOk st0 fileA "f1").1.kv (hashKey "f1") = some (sha256Hex fileA.buffer) :=
  C6_upload_order st0 fileA "f1"

/-- C1 counterexample: the upload return value is the same two-field
record whether or not the deduplication index already reported the
content as present — `uploadFile` returns no `alreadyExisted` field, it
only logs the dedup outcome.  `st0` has the content absent, `stHasA` (the
state after a first upload of the same bytes) has it present, yet the two
returned values coincide. -/
theorem C1_counterexample :
    st0.bloomFilter.has fileA.buffer = false ∧
    stHasA.bloomFilter.has fileA.buffer = true ∧
    uploadResultOf (uploadFile st0 (some fileA) "f1") =
      some ⟨"f1", "hello x.txt"⟩ ∧
    uploadResultOf (uploadFile stHasA (some fileA) "f1") =
      some ⟨"f1", "hello x.txt"⟩ :=
  ⟨by decide, by decide, by decide, by decide⟩

/-- C1 amended: a successful upload returns exactly
`(fileId, percent-decoded original filename)`; no `alreadyExisted`
boolean is part of the result, the dedup outcome affecting only which
side effects run. -/
theorem C1_upload_result (s : ServiceState) (f : UploadedFile) (fid : String) :
    uploadResultOf (uploadFile s (some f) fid) =
      some ⟨fid, decodeURIComponent f.originalname⟩ := by
  show some (uploadOk s f fid).2.1 = _
  rw [uploadOk_result]

/-- C9: when no file in the uploads directory has the stored hash as a
name prefix — including an unresolvable fileId, whose `null` hash is
coerced to the search string `"null"` — download fails with the not-found
error for every delivery path, before any dispatch. -/
theorem C9_download_notfound (cfg : S3Config) (s : ServiceState)
    (fid way : String) (type id : Option String)
    (hnone : s.files.find? (fun fl =>
      ((getKV s.kv (hashKey fid)).getD "null").data.isPrefixOf fl.name.data) = none) :
    download cfg s fid way type id = .error "File not found" := by
  unfold download
  simp only [hnone]

/-- C9 witness: an unresolvable fileId against a nonempty directory. -/
theorem C9_download_notfound_witness :
    (stC.files.find? (fun fl =>
      ((getKV stC.kv (hashKey "nope")).getD "null").data.isPrefixOf fl.name.data) = none) ∧
    download cfg0 stC "nope" "local" none none = .error "File not found" :=
  ⟨by decide, C9_download_notfound cfg0 stC "nope" "local" none none (by decide)⟩

/-- C10: `setExpire` with `second = 0` issues an absolute `EXPIREAT` (not
a relative TTL, and never no expiry at all) whose timestamp is 03:00:00
of the current local calendar day — hence a timestamp in the past
whenever the call happens after 03:00. -/
theorem C10_setExpire_absolute (key : String) (nowMs : Nat)
    (hafter : threeAMms < nowMs % msPerDay) :
    setExpire key nowMs 0 = (key, ExpireCmd.expireAt (setHours3 nowMs / 1000)) ∧
    (∀ sec, setExpire key nowMs 0 ≠ (key, ExpireCmd.expireRel sec)) ∧
    setHours3 nowMs % msPerDay = threeAMms ∧
    setHours3 nowMs / msPerDay = nowMs / msPerDay ∧
    setHours3 nowMs < nowMs := by
  refine ⟨rfl, ?_, ?_, ?_, ?_⟩
  · intro sec hEq
    simp [setExpire] at hEq
  · unfold setHours3 msPerDay threeAMms
    omega
  · unfold setHours3 msPerDay threeAMms
    omega
  · unfold msPerDay threeAMms at hafter
    unfold setHours3 msPerDay threeAMms
    omega

/-- C2: when the stored hash of a fileId matches a blob, delete removes
the blob's content from the index, unlinks the blob, persists the updated
snapshot, deletes the fileId's record entries, then deletes every other
record sharing the hash — in exactly that order, per the emitted trace —
and afterwards a download of any fileId that referenced the blob fails
with the not-found error. -/
theorem C2_delete (s : ServiceState) (fid h : String) (b : FileEntry)
    (hget : getKV s.kv (hashKey fid) = some h)
    (hfind : s.files.find? (fun fl => containsSub h.data fl.name.data) = some b)
    (hnames : ∀ fl ∈ s.files, ("null" : String).data.isPrefixOf fl.name.data = false) :
    ∃ s2, deleteFile s fid = .ok (s2, "File deleted successfully",
        [Event.filterRemove, Event.blobUnlink b.name, Event.snapshotSave,
         Event.recordDeleteById fid, Event.recordDeleteByHash h]) ∧
      s2.bloomFilter = s.bloomFilter.remove b.content ∧
      s2.files = s.files.filter (fun fl => !(fl.name == b.name)) ∧
      s2.savedFilter = some ((s.bloomFilter.remove b.content).toJSON) ∧
      (∀ fid2, getKV s.kv (hashKey fid2) = some h →
        getKV s2.kv (hashKey fid2) = none ∧ getKV s2.kv (filenameKey fid2) = none) ∧
      (∀ cfg fid2 way type id, getKV s.kv (hashKey fid2) = some h →
        download cfg s2 fid2 way type id = .error "File not found") := by
  have hrec : ∀ fid2, getKV s.kv (hashKey fid2) = some h →
      getKV (deleteFileInfoWithSameHash (deleteFileInfoByFileId s.kv fid) h)
        (hashKey fid2) = none ∧
      getKV (deleteFileInfoWithSameHash (deleteFileInfoByFileId s.kv fid) h)
        (filenameKey fid2) = none := by
    intro fid2 hget2
    by_cases heq : fid2 = fid
    · subst heq
      have h1 : getKV (deleteFileInfoByFileId s.kv fid2) (hashKey fid2) = none := by
        unfold deleteFileInfoByFileId
        rw [getKV_delKV_ne _ _ _ (hashKey_ne_filenameKey fid2 fid2)]
        exact getKV_delKV_self _ _
      have h2 : getKV (deleteFileInfoByFileId s.kv fid2) (filenameKey fid2) = none :=
        getKV_delKV_self _ _
      constructor
      · unfold deleteFileInfoWithSameHash
        exact getKV_filter_none _ _ _ h1
      · unfold deleteFileInfoWithSameHash
        exact getKV_filter_none _ _ _ h2
    · have hne1 : hashKey fid2 ≠ hashKey fid := fun hc => heq (hashKey_inj _ _ hc)
      have hne2 : hashKey fid2 ≠ filenameKey fid := hashKey_ne_filenameKey fid2 fid
      have hkv2 : getKV (deleteFileInfoByFileId s.kv fid) (hashKey fid2) = some h := by
        unfold deleteFileInfoByFileId
        rw [getKV_delKV_ne _ _ _ hne2, getKV_delKV_ne _ _ _ hne1]
        exact hget2
      have hmem : (hashKey fid2, h) ∈ deleteFileInfoByFileId s.kv fid :=
        mem_of_getKV _ _ _ hkv2
      exact ⟨sameHash_removes_hashKey _ h fid2 hmem,
             sameHash_removes_filenameKey _ h fid2 hmem⟩
  refine ⟨{ s with
      files := s.files.filter (fun fl => !(fl.name == b.name)),
      bloomFilter := s.bloomFilter.remove b.content,
      savedFilter := some ((s.bloomFilter.remove b.content).toJSON),
      kv := deleteFileInfoWithSameHash (deleteFileInfoByFileId s.kv fid) h },
    ?_, rfl, rfl, rfl, hrec, ?_⟩
  · unfold deleteFile
    simp [hget, hfind]
  · intro cfg fid2 way type id hget2
    have hkvnone := (hrec fid2 hget2).1
    have hfnone : (s.files.filter (fun fl => !(fl.name == b.name))).find?
        (fun fl => ("null" : String).data.isPrefixOf fl.name.data) = none := by
      rw [List.find?_eq_none]
      intro fl hfl
      have hflmem := (List.mem_filter.1 hfl).1
      simp [hnames fl hflmem]
    unfold download
    dsimp only
    rw [hkvnone]
    simp only [Option.getD_none]
    rw [hfnone]

/-- C2 witness: the two-record state sharing one blob; deleting the first
fileId also clears the second fileId's records and makes its download
fail. -/
theorem C2_delete_witness :
    (getKV stTwo.kv (hashKey "fA") = some (sha256Hex [1, 2, 3]) ∧
      stTwo.files.find? (fun fl =>
        containsSub (sha256Hex [1, 2, 3]).data fl.name.data) =
        some ⟨sha256Hex [1, 2, 3] ++ ".txt", [1, 2, 3]⟩ ∧
      (∀ fl ∈ stTwo.files,
        ("null" : String).data.isPrefixOf fl.name.data = false)) ∧
    (∃ s2, deleteFile stTwo "fA" = .ok (s2, "File deleted successfully",
        [Event.filterRemove,
         Event.blobUnlink (⟨sha256Hex [1, 2, 3] ++ ".txt", [1, 2, 3]⟩ : FileEntry).name,
         Event.snapshotSave, Event.recordDeleteById "fA",
         Event.recordDeleteByHash (sha256Hex [1, 2, 3])]) ∧
      s2.bloomFilter = stTwo.bloomFilter.remove
        (⟨sha256Hex [1, 2, 3] ++ ".txt", [1, 2, 3]⟩ : FileEntry).content ∧
      s2.files = stTwo.files.filter (fun fl =>
        !(fl.name == (⟨sha256Hex [1, 2, 3] ++ ".txt", [1, 2, 3]⟩ : FileEntry).name)) ∧
      s2.savedFilter = some ((stTwo.bloomFilter.remove
        (⟨sha256Hex [1, 2, 3] ++ ".txt", [1, 2, 3]⟩ : FileEntry).content).toJSON) ∧
      (∀ fid2, getKV stTwo.kv (hashKey fid2) = some (sha256Hex [1, 2, 3]) →
        getKV s2.kv (hashKey fid2) = none ∧
        getKV s2.kv (filenameKey fid2) = none) ∧
      (∀ cfg fid2 way type id,
        getKV stTwo.kv (hashKey fid2) = some (sha256Hex [1, 2, 3]) →
        download cfg s2 fid2 way type id = .error "File not found")) :=
  ⟨⟨by decide, by decide, by decide⟩,
   C2_delete stTwo "fA" (sha256Hex [1, 2, 3])
     ⟨sha256Hex [1, 2, 3] ++ ".txt", [1, 2, 3]⟩
     (by decide) (by decide) (by decide)⟩

/-- C3: uploading byte-identical payloads twice yields the two supplied
distinct fileIds but at most one blob for the content hash; after the
first upload the index necessarily reports the content present, so the
second upload writes no blob, adds nothing to the index, and saves no
snapshot — its trace stops after the dedup check. -/
theorem C3_upload_idempotence (s : ServiceState) (f : UploadedFile)
    (id1 id2 : String) (hids : id1 ≠ id2) (hwf : s.bloomFilter.WF)
    (h0 : countBlobs s (sha256Hex f.buffer) = 0) :
    ((uploadOk s f id1).2.1).fileId ≠
      ((uploadOk (uploadOk s f id1).1 f id2).2.1).fileId ∧
    ((uploadOk s f id1).1).bloomFilter.has f.buffer = true ∧
    countBlobs (uploadOk (uploadOk s f id1).1 f id2).1 (sha256Hex f.buffer) ≤ 1 ∧
    ((uploadOk (uploadOk s f id1).1 f id2).1).files = ((uploadOk s f id1).1).files ∧
    ((uploadOk (uploadOk s f id1).1 f id2).1).bloomFilter =
      ((uploadOk s f id1).1).bloomFilter ∧
    ((uploadOk (uploadOk s f id1).1 f id2).1).savedFilter =
      ((uploadOk s f id1).1).savedFilter ∧
    (uploadOk (uploadOk s f id1).1 f id2).2.2 =
      [Event.recordWrite id2, Event.dedupCheck true] := by
  have hhas1 : ((uploadOk s f id1).1).bloomFilter.has f.buffer = true := by
    cases hb : s.bloomFilter.has f.buffer
    · rw [uploadOk_of_not_has s f id1 hb]
      exact has_add_self s.bloomFilter f.buffer hwf
    · rw [uploadOk_of_has s f id1 hb]
      exact hb
  have hsecond := uploadOk_of_has (uploadOk s f id1).1 f id2 hhas1
  have hcount1 : countBlobs (uploadOk s f id1).1 (sha256Hex f.buffer) ≤ 1 := by
    cases hb : s.bloomFilter.has f.buffer
    · rw [uploadOk_of_not_has s f id1 hb]
      unfold countBlobs at h0 ⊢
      rw [List.filter_append, List.length_append, h0]
      simp [generateUniqueFilename, self_isPrefixOf_append]
    · rw [uploadOk_of_has s f id1 hb]
      unfold countBlobs at h0 ⊢
      simp [h0]
  refine ⟨?_, hhas1, ?_, ?_, ?_, ?_, ?_⟩
  · rw [uploadOk_result, uploadOk_result]
    simpa using hids
  · rw [hsecond]
    exact hcount1
  · rw [hsecond]
  · rw [hsecond]
  · rw [hsecond]
  · rw [hsecond]

/-- C3 witness: two uploads of the same bytes into the empty state. -/
theorem C3_upload_idempotence_witness :
    (("f1" : String) ≠ "f2" ∧ st0.bloomFilter.WF ∧
      countBlobs st0 (sha256Hex fileA.buffer) = 0) ∧
    (((uploadOk st0 fileA "f1").2.1).fileId ≠
      ((uploadOk (uploadOk st0 fileA "f1").1 fileA "f2").2.1).fileId ∧
    ((uploadOk st0 fileA "f1").1).bloomFilter.has fileA.buffer = true ∧
    countBlobs (uploadOk (uploadOk st0 fileA "f1").1 fileA "f2").1
      (sha256Hex fileA.buffer) ≤ 1 ∧
    ((uploadOk (uploadOk st0 fileA "f1").1 fileA "f2").1).files =
      ((uploadOk st0 fileA "f1").1).files ∧
    ((uploadOk (uploadOk st0 fileA "f1").1 fileA "f2").1).bloomFilter =
      ((uploadOk st0 fileA "f1").1).bloomFilter ∧
    ((uploadOk (uploadOk st0 fileA "f1").1 fileA "f2").1).savedFilter =
      ((uploadOk st0 fileA "f1").1).savedFilter ∧
    (uploadOk (uploadOk st0 fileA "f1").1 fileA "f2").2.2 =
      [Event.recordWrite "f2", Event.dedupCheck true]) :=
  ⟨⟨by decide, ⟨by decide, by decide⟩, by decide⟩,
   C3_upload_idempotence st0 fileA "f1" "f2" (by decide)
     ⟨by decide, by decide⟩ (by decide)⟩

/-- C4 counterexample: `google-cloud` differs from `local` and
`staging-area`, yet download of an existing blob over it does not fail
with the invalid-way error — the unimplemented branch falls through and
resolves to `undefined`. -/
theorem C4_counterexample :
    ("google-cloud" : String) ≠ "local" ∧
    ("google-cloud" : String) ≠ "staging-area" ∧
    download cfg0 stC "f1" "google-cloud" none none = .ok (stC, .undefinedResult) ∧
    download cfg0 stC "f1" "google-cloud" none none ≠
      .error "Invalid download way." := by
  refine ⟨by decide, by decide, rfl, ?_⟩
  intro hcontra
  rw [show download cfg0 stC "f1" "google-cloud" none none =
    Except.ok (stC, DownloadOutcome.undefinedResult) from rfl] at hcontra
  exact Except.noConfusion hcontra

/-- C4 amended: with a blob matching the stored hash, `local` returns the
stream plus the stored original filename; `staging-area` demands truthy
`type` and `id` and otherwise pushes the blob to the remote archive under
the key scheme and returns the location; `google-cloud` resolves to
`undefined` (unimplemented placeholder); every remaining `way` fails with
the invalid-way error. -/
theorem C4_download_dispatch (cfg : S3Config) (s : ServiceState)
    (fid way : String) (type id : Option String) (h : String) (b : FileEntry)
    (hget : getKV s.kv (hashKey fid) = some h)
    (hfind : s.files.find? (fun fl => h.data.isPrefixOf fl.name.data) = some b) :
    (way = "local" → download cfg s fid way type id =
      .ok (s, .localFile b.content (getKV s.kv (filenameKey fid)))) ∧
    (way = "staging-area" → truthy type = false ∨ truthy id = false →
      download cfg s fid way type id =
        .error "Type and id query parameters are required for staging-area download.") ∧
    (∀ t i, way = "staging-area" → type = some t → id = some i →
      t ≠ "" → i ≠ "" → t = "user" ∨ t = "room" →
      download cfg s fid way type id =
        .ok ({ s with remote := s.remote ++
            [⟨t ++ "/" ++ i ++ "/" ++ b.name, b.content,
              encodeURIComponent ((getKV s.kv (filenameKey fid)).getD "null")⟩] },
          .stagingArea fid (getKV s.kv (filenameKey fid))
            (s3Location cfg (t ++ "/" ++ i ++ "/" ++ b.name)))) ∧
    (way = "google-cloud" → download cfg s fid way type id = .ok (s, .undefinedResult)) ∧
    (way ≠ "local" → way ≠ "staging-area" → way ≠ "google-cloud" →
      download cfg s fid way type id = .error "Invalid download way.") := by
  refine ⟨?_, ?_, ?_, ?_, ?_⟩
  · intro h1
    subst h1
    unfold download
    simp [hget, hfind]
  · intro h1 h2
    subst h1
    unfold download
    rcases h2 with ht | hi
    · simp [hget, hfind, ht]
    · simp [hget, hfind, hi]
  · intro t i h1 htype hid ht hi hval
    subst h1 htype hid
    unfold download
    rcases hval with hv | hv <;> subst hv <;>
      simp [hget, hfind, truthy, ht, hi, s3UploadFile, generateS3Key, s3Location]
  · intro h1
    subst h1
    unfold download
    simp [hget, hfind]
  · intro h1 h2 h3
    unfold download
    have e1 : (way == "local") = false := beq_eq_false_iff_ne.2 h1
    have e2 : (way == "staging-area") = false := beq_eq_false_iff_ne.2 h2
    have e3 : (way == "google-cloud") = false := beq_eq_false_iff_ne.2 h3
    simp [hget, hfind, e1, e2, e3]

/-- C4 witness: the dispatch facts at a concrete state, through the
staging-area path. -/
theorem C4_download_dispatch_witness :
    (getKV stC.kv (hashKey "f1") = some "aaaa" ∧
      stC.files.find? (fun fl => ("aaaa" : String).data.isPrefixOf fl.name.data) =
        some ⟨"aaaa.txt", [9]⟩) ∧
    (("staging-area" = "local" → download cfg0 stC "f1" "staging-area"
        (some "user") (some "u9") =
      .ok (stC, .localFile (⟨"aaaa.txt", [9]⟩ : FileEntry).content
        (getKV stC.kv (filenameKey "f1")))) ∧
    ("staging-area" = "staging-area" →
      truthy (some "user") = false ∨ truthy (some "u9") = false →
      download cfg0 stC "f1" "staging-area" (some "user") (some "u9") =
        .error "Type and id query parameters are required for staging-area download.") ∧
    (∀ t i, "staging-area" = "staging-area" → some "user" = some t →
      some "u9" = some i → t ≠ "" → i ≠ "" → t = "user" ∨ t = "room" →
      download cfg0 stC "f1" "staging-area" (some "user") (some "u9") =
        .ok ({ stC with remote := stC.remote ++
            [⟨t ++ "/" ++ i ++ "/" ++ (⟨"aaaa.txt", [9]⟩ : FileEntry).name,
              (⟨"aaaa.txt", [9]⟩ : FileEntry).content,
              encodeURIComponent ((getKV stC.kv (filenameKey "f1")).getD "null")⟩] },
          .stagingArea "f1" (getKV stC.kv (filenameKey "f1"))
            (s3Location cfg0 (t ++ "/" ++ i ++ "/" ++
              (⟨"aaaa.txt", [9]⟩ : FileEntry).name)))) ∧
    ("staging-area" = "google-cloud" →
      download cfg0 stC "f1" "staging-area" (some "user") (some "u9") =
        .ok (stC, .undefinedResult)) ∧
    (("staging-area" : String) ≠ "local" → ("staging-area" : String) ≠ "staging-area" →
      ("staging-area" : String) ≠ "google-cloud" →
      download cfg0 stC "f1" "staging-area" (some "user") (some "u9") =
        .error "Invalid download way.")) :=
  ⟨⟨by decide, by decide⟩,
   C4_download_dispatch cfg0 stC "f1" "staging-area" (some "user") (some "u9")
     "aaaa" ⟨"aaaa.txt", [9]⟩ (by decide) (by decide)⟩

/-- C7 counterexample: delete does not locate the blob by matching the
stored hash as a prefix — it uses substring containment (`includes`).  In
`stD` no file name has the stored hash `abc` as a prefix, so a
prefix-matching delete would fail with not-found, yet `deleteFile`
succeeds and unlinks `xabc`, which merely contains the hash. -/
theorem C7_counterexample :
    stD.files.find? (fun fl => ("abc" : String).data.isPrefixOf fl.name.data) = none ∧
    deleteFile stD "f1" = .ok
      (⟨[], stD.bloomFilter.remove [9], [],
        some ((stD.bloomFilter.remove [9]).toJSON), []⟩,
       "File deleted successfully",
       [Event.filterRemove, Event.blobUnlink "xabc", Event.snapshotSave,
        Event.recordDeleteById "f1", Event.recordDeleteByHash "abc"]) :=
  ⟨by decide, by rfl⟩

/-- C7 amended: an upload stores the blob under the name
`{hex sha256 digest}{original extension}`; download locates the blob by
matching the stored hash as a prefix of names in the full directory
listing, while delete locates it by substring containment of the hash in
the listing. -/
theorem C7_blob_naming_lookup (cfg : S3Config) (s : ServiceState)
    (f : UploadedFile) (fid : String) (h : String) :
    (s.bloomFilter.has f.buffer = false →
      (uploadOk s f fid).1.files =
        s.files ++ [⟨sha256Hex f.buffer ++ extname (decodeURIComponent f.originalname),
          f.buffer⟩]) ∧
    (getKV s.kv (hashKey fid) = some h →
      (s.files.find? (fun fl => h.data.isPrefixOf fl.name.data) = none →
        download cfg s fid "local" none none = .error "File not found") ∧
      (∀ b, s.files.find? (fun fl => h.data.isPrefixOf fl.name.data) = some b →
        download cfg s fid "local" none none =
          .ok (s, .localFile b.content (getKV s.kv (filenameKey fid))))) ∧
    (getKV s.kv (hashKey fid) = some h →
      (s.files.find? (fun fl => containsSub h.data fl.name.data) = none →
        deleteFile s fid = .error "File not found") ∧
      (∀ b, s.files.find? (fun fl => containsSub h.data fl.name.data) = some b →
        ∃ s2, deleteFile s fid = .ok (s2, "File deleted successfully",
            [Event.filterRemove, Event.blobUnlink b.name, Event.snapshotSave,
             Event.recordDeleteById fid, Event.recordDeleteByHash h]) ∧
          s2.files = s.files.filter (fun fl => !(fl.name == b.name)))) := by
  refine ⟨?_, ?_, ?_⟩
  · intro hb
    rw [uploadOk_of_not_has s f fid hb]
    rfl
  · intro hget
    constructor
    · intro hn
      unfold download
      simp [hget, hn]
    · intro b hb2
      unfold download
      simp [hget, hb2]
  · intro hget
    constructor
    · intro hn
      unfold deleteFile
      simp [hget, hn]
    · intro b hb2
      refine ⟨{ s with
          files := s.files.filter (fun fl => !(fl.name == b.name)),
          bloomFilter := s.bloomFilter.remove b.content,
          savedFilter := some ((s.bloomFilter.remove b.content).toJSON),
          kv := deleteFileInfoWithSameHash (deleteFileInfoByFileId s.kv fid) h },
        ?_, rfl⟩
      unfold deleteFile
      simp [hget, hb2]

/-- C7 witness: the naming and both lookup disciplines at the one-blob
state. -/
theorem C7_blob_naming_lookup_witness :
    (st0.bloomFilter.has fileA.buffer = false →
      (uploadOk st0 fileA "f1").1.files =
        st0.files ++ [⟨sha256Hex fileA.buffer ++
          extname (decodeURIComponent fileA.originalname), fileA.buffer⟩]) ∧
    (getKV st0.kv (hashKey "f1") = some (sha256Hex [1, 2, 3]) →
      (st0.files.find? (fun fl =>
          (sha256Hex [1, 2, 3]).data.isPrefixOf fl.name.data) = none →
        download cfg0 st0 "f1" "local" none none = .error "File not found") ∧
      (∀ b, st0.files.find? (fun fl =>
          (sha256Hex [1, 2, 3]).data.isPrefixOf fl.name.data) = some b →
        download cfg0 st0 "f1" "local" none none =
          .ok (st0, .localFile b.content (getKV st0.kv (filenameKey "f1"))))) ∧
    (getKV st0.kv (hashKey "f1") = some (sha256Hex [1, 2, 3]) →
      (st0.files.find? (fun fl =>
          containsSub (sha256Hex [1, 2, 3]).data fl.name.data) = none →
        deleteFile st0 "f1" = .error "File not found") ∧
      (∀ b, st0.files.find? (fun fl =>
          containsSub (sha256Hex [1, 2, 3]).data fl.name.data) = some b →
        ∃ s2, deleteFile st0 "f1" = .ok (s2, "File deleted successfully",
            [Event.filterRemove, Event.blobUnlink b.name, Event.snapshotSave,
             Event.recordDeleteById "f1",
             Event.recordDeleteByHash (sha256Hex [1, 2, 3])]) ∧
          s2.files = st0.files.filter (fun fl => !(fl.name == b.name)))) :=
  C7_blob_naming_lookup cfg0 st0 fileA "f1" (sha256Hex [1, 2, 3])

/-- C8: deleteAll empties the uploads directory, installs a freshly
created filter whose membership query answers false on every content,
persists the fresh snapshot, and the two cursor-based pattern scans
delete exactly the `file:*:hash` and `file:*:filename` keys, leaving no
key matching either pattern. -/
theorem C8_deleteAll (cfg : FilterConfig) (s : ServiceState)
    (hk : 0 < cfg.nbHashes) :
    (deleteAllFiles cfg s).1.files = [] ∧
    (deleteAllFiles cfg s).1.bloomFilter = CountingBloomFilter.create cfg ∧
    (∀ x : Content, (deleteAllFiles cfg s).1.bloomFilter.has x = false) ∧
    (deleteAllFiles cfg s).1.savedFilter =
      some (CountingBloomFilter.create cfg).toJSON ∧
    (deleteAllFiles cfg s).1.kv =
      (s.kv.filter (fun p => !(globMatch hashPattern p.1))).filter
        (fun p => !(globMatch filenamePattern p.1)) ∧
    (∀ p ∈ (deleteAllFiles cfg s).1.kv,
      globMatch hashPattern p.1 = false ∧ globMatch filenamePattern p.1 = false) ∧
    (deleteAllFiles cfg s).2 = "All files deleted successfully" := by
  have hkv : (deleteAllFiles cfg s).1.kv =
      (s.kv.filter (fun p => !(globMatch hashPattern p.1))).filter
        (fun p => !(globMatch filenamePattern p.1)) := by
    show deleteByPattern (deleteByPattern s.kv hashPattern) filenamePattern = _
    rw [deleteByPattern_eq_filter, deleteByPattern_eq_filter]
  refine ⟨rfl, rfl, fun x => create_has_false cfg hk x, rfl, hkv, ?_, rfl⟩
  intro p hp
  rw [hkv] at hp
  have h2 := List.mem_filter.1 hp
  have h1 := List.mem_filter.1 h2.1
  exact ⟨by simpa using h1.2, by simpa using h2.2⟩

/-- C8 witness: deleteAll on the two-record state. -/
theorem C8_deleteAll_witness :
    (0 : Nat) < (⟨8, 2⟩ : FilterConfig).nbHashes ∧
    ((deleteAllFiles ⟨8, 2⟩ stTwo).1.files = [] ∧
    (deleteAllFiles ⟨8, 2⟩ stTwo).1.bloomFilter =
      CountingBloomFilter.create ⟨8, 2⟩ ∧
    (∀ x : Content, (deleteAllFiles ⟨8, 2⟩ stTwo).1.bloomFilter.has x = false) ∧
    (deleteAllFiles ⟨8, 2⟩ stTwo).1.savedFilter =
      some (CountingBloomFilter.create ⟨8, 2⟩).toJSON ∧
    (deleteAllFiles ⟨8, 2⟩ stTwo).1.kv =
      (stTwo.kv.filter (fun p => !(globMatch hashPattern p.1))).filter
        (fun p => !(globMatch filenamePattern p.1)) ∧
    (∀ p ∈ (deleteAllFiles ⟨8, 2⟩ stTwo).1.kv,
      globMatch hashPattern p.1 = false ∧ globMatch filenamePattern p.1 = false) ∧
    (deleteAllFiles ⟨8, 2⟩ stTwo).2 = "All files deleted successfully") :=
  ⟨by decide, C8_deleteAll ⟨8, 2⟩ stTwo (by decide)⟩

/-- C10 witness: a concrete clock reading after 03:00 local time. -/
theorem C10_setExpire_absolute_witness :
    threeAMms < 1700000000000 % msPerDay ∧
    (setExpire "k" 1700000000000 0 =
        ("k", ExpireCmd.expireAt (setHours3 1700000000000 / 1000)) ∧
      (∀ sec, setExpire "k" 1700000000000 0 ≠ ("k", ExpireCmd.expireRel sec)) ∧
      setHours3 1700000000000 % msPerDay = threeAMms ∧
      setHours3 1700000000000 / msPerDay = 1700000000000 / msPerDay ∧
      setHours3 1700000000000 < 1700000000000) :=
  ⟨by decide, C10_setExpire_absolute "k" 1700000000000 (by decide)⟩

end CloudDrop

